import Mathlib

/-!
# Verification of the alert-watcher detection engine

Shallow embedding of `src/watcher/watcher.py`: the stateful detection and
alert-dedup engine (sliding-window error-rate tracker, failover tracker,
cooldown/latch logic, maintenance-mode gate) together with theorems checking
the specification's claims against it.

Modelling conventions:
* Wall-clock timestamps (`datetime.utcnow()`) are integers (seconds).
* `datetime.min`, the "never fired" sentinel for the cooldown timers, is
  modelled as `none : Option ℤ`; the cooldown test on the sentinel is
  always true, matching `(now - datetime.min).total_seconds() >= cooldown`
  for every realistic clock value and cooldown.
* Each loop iteration observes one boolean maintenance flag (the existence
  of `MAINTENANCE_FILE` during that iteration), one clock reading, and the
  result of matching `LOG_REGEX` against the line (`none` when unmatched,
  otherwise the `(pool, upstream_status)` groups).
* A call to `send_slack_alert` produces an `Alert` record; its `dispatched`
  field records whether the Dispatcher (the HTTP POST) was actually invoked,
  i.e. whether the maintenance gate at the top of `send_slack_alert` let the
  alert through.
* Python float arithmetic on the error rate is modelled with exact rational
  arithmetic (`ℚ`); the source applies no explicit rounding.
-/

namespace Watcher

/-- Immutable configuration, read once at startup (watcher.py lines 10-16). -/
structure Config where
  activePool : String
  errorRateThreshold : ℚ
  windowSize : ℕ
  alertCooldownSec : ℤ
deriving DecidableEq

/-- One constructor per `send_slack_alert` call site in watcher.py. -/
inductive AlertKind where
  | startup
  | maintEnabled
  | maintDisabled
  | failoverDetected
  | failoverRecovery
  | highErrorRate
  | errorRateRecovered
deriving DecidableEq

/-- The `alert_type` string the source passes to `send_slack_alert` at each
call site; the spec calls this the alert's class (`failover | error_rate | info`). -/
def AlertKind.alertType : AlertKind → String
  | .startup => "info"
  | .maintEnabled => "info"
  | .maintDisabled => "info"
  | .failoverDetected => "failover"
  | .failoverRecovery => "info"
  | .highErrorRate => "error_rate"
  | .errorRateRecovered => "info"

/-- One `send_slack_alert` call: which call site, the clock reading of the
iteration that produced it, whether the Dispatcher was actually invoked
(maintenance gate, watcher.py lines 40-42), and the `error_rate` argument. -/
structure Alert where
  kind : AlertKind
  time : ℤ
  dispatched : Bool
  errorRate : Option ℚ
deriving DecidableEq

/-- `send_slack_alert` (watcher.py lines 38-42): if the maintenance marker is
present the alert is suppressed (only a local log entry; the Dispatcher is
never invoked), otherwise the alert is dispatched. -/
def sendSlackAlert (maint : Bool) (kind : AlertKind) (time : ℤ) (errorRate : Option ℚ) : Alert :=
  ⟨kind, time, !maint, errorRate⟩

/-- The module-level mutable state (watcher.py lines 23-28). -/
structure WState where
  requestWindow : List ℕ
  lastFailoverPool : String
  lastFailoverAlert : Option ℤ
  lastErrorRateAlert : Option ℤ
  errorRateBreached : Bool
  maintenanceModePrev : Bool
deriving DecidableEq

/-- Initial state (watcher.py lines 23-28): empty window, tracker at the
configured active pool, both cooldown timers at the never-fired sentinel,
latch clear, maintenance flag previously unseen (False). -/
def initState (cfg : Config) : WState :=
  ⟨[], cfg.activePool, none, none, false, false⟩

/-- `(now - last_alert).total_seconds() >= ALERT_COOLDOWN_SEC`, with the
`datetime.min` sentinel (`none`) always elapsed. -/
def cooldownElapsed (cfg : Config) (now : ℤ) : Option ℤ → Bool
  | none => true
  | some t => decide (cfg.alertCooldownSec ≤ now - t)

/-- `collections.deque(maxlen := cap).append s`: the new element goes on the
right and elements are evicted from the left until at most `cap` remain
(watcher.py lines 23 and 148). -/
def dequeAppend (cap : ℕ) (w : List ℕ) (s : ℕ) : List ℕ :=
  (w ++ [s]).drop (w.length + 1 - cap)

/-- `500 <= s <= 599` (watcher.py line 180). -/
def is5xx (s : ℕ) : Bool := decide (500 ≤ s ∧ s ≤ 599)

/-- `sum(1 for s in request_window if 500 <= s <= 599)` (watcher.py line 180). -/
def errorCount (w : List ℕ) : ℕ := w.countP is5xx

/-- `(error_count / WINDOW_SIZE) * 100` (watcher.py line 181), in exact
rational arithmetic. -/
def errorRate (cfg : Config) (w : List ℕ) : ℚ :=
  ((errorCount w : ℚ) / (cfg.windowSize : ℚ)) * 100

/-- The inputs one loop iteration consumes: the maintenance-marker existence
probe, the clock, and the regex match result (`none` = unmatched line). -/
structure LogLine where
  maint : Bool
  now : ℤ
  parsed : Option (String × ℕ)
deriving DecidableEq

/-- Result of the failover section: the new `last_failover_pool`, the new
`last_failover_alert` timer, and the alert call site reached, if any. -/
structure FailoverResult where
  lastFailoverPool : String
  lastFailoverAlert : Option ℤ
  raised : Option AlertKind
deriving DecidableEq

/-- Failover detection and recovery sections (watcher.py lines 151-176):
`if pool != last_failover_pool:` alert under cooldown, then unconditionally
remember the new pool; `elif pool == ACTIVE_POOL and last_failover_pool !=
ACTIVE_POOL:` the recovery alert under the same cooldown timer. -/
def failoverCheck (cfg : Config) (now : ℤ) (pool lastPool : String)
    (lastAlert : Option ℤ) : FailoverResult :=
  if pool ≠ lastPool then
    if cooldownElapsed cfg now lastAlert then ⟨pool, some now, some .failoverDetected⟩
    else ⟨pool, lastAlert, none⟩
  else if pool = cfg.activePool ∧ lastPool ≠ cfg.activePool then
    if cooldownElapsed cfg now lastAlert then ⟨cfg.activePool, some now, some .failoverRecovery⟩
    else ⟨cfg.activePool, lastAlert, none⟩
  else ⟨lastPool, lastAlert, none⟩

/-- Result of the error-rate section: new `last_error_rate_alert` timer, new
`error_rate_breached` latch, and the alert call site reached, if any. -/
structure ErrorRateResult where
  lastErrorRateAlert : Option ℤ
  errorRateBreached : Bool
  raised : Option AlertKind
deriving DecidableEq

/-- Error-rate detection (watcher.py lines 184-207), evaluated only when the
window is full: breach when `error_rate > threshold` with the latch clear and
cooldown elapsed; recovery when `error_rate <= threshold` with the latch set
and cooldown elapsed; otherwise the latch and the timer are left unchanged. -/
def errorRateCheck (cfg : Config) (now : ℤ) (w : List ℕ)
    (lastAlert : Option ℤ) (breached : Bool) : ErrorRateResult :=
  if errorRate cfg w > cfg.errorRateThreshold then
    if breached = false ∧ cooldownElapsed cfg now lastAlert = true then
      ⟨some now, true, some .highErrorRate⟩
    else ⟨lastAlert, breached, none⟩
  else if breached = true ∧ cooldownElapsed cfg now lastAlert = true then
    ⟨some now, false, some .errorRateRecovered⟩
  else ⟨lastAlert, breached, none⟩

/-- Maintenance-toggle section (watcher.py lines 133-140): on an edge of the
maintenance flag, one toggle alert is attempted; the gate inside
`send_slack_alert` sees the current (just-changed) flag value. -/
def toggleAlert (prev maint : Bool) (now : ℤ) : List Alert :=
  if maint ≠ prev then
    [sendSlackAlert maint (if maint then .maintEnabled else .maintDisabled) now none]
  else []

/-- The `send_slack_alert` call made when a detection section reached an
alert call site (`none` = no call site reached this iteration). -/
def raisedAlerts (maint : Bool) (now : ℤ) (errorRate : Option ℚ) :
    Option AlertKind → List Alert
  | some k => [sendSlackAlert maint k now errorRate]
  | none => []

/-- One iteration of the main loop body (watcher.py lines 132-207): the
maintenance-toggle check, the regex match (unmatched lines `continue` after
the toggle check), the window push, the failover section and the error-rate
section (the latter only when the window is full).  `maintenance_mode_prev`
is assigned the current flag; in the source the assignment sits inside the
edge `if`, which is equivalent because outside the edge the two values are
already equal.  Returns the new state and the `send_slack_alert` calls made,
in order. -/
def step (cfg : Config) (st : WState) (line : LogLine) : WState × List Alert :=
  match line.parsed with
  | none =>
    (⟨st.requestWindow, st.lastFailoverPool, st.lastFailoverAlert, st.lastErrorRateAlert,
      st.errorRateBreached, line.maint⟩,
     toggleAlert st.maintenanceModePrev line.maint line.now)
  | some (pool, status) =>
    let w := dequeAppend cfg.windowSize st.requestWindow status
    let fr := failoverCheck cfg line.now pool st.lastFailoverPool st.lastFailoverAlert
    let er :=
      if w.length = cfg.windowSize then
        errorRateCheck cfg line.now w st.lastErrorRateAlert st.errorRateBreached
      else ⟨st.lastErrorRateAlert, st.errorRateBreached, none⟩
    (⟨w, fr.lastFailoverPool, fr.lastFailoverAlert, er.lastErrorRateAlert,
      er.errorRateBreached, line.maint⟩,
     toggleAlert st.maintenanceModePrev line.maint line.now ++
       raisedAlerts line.maint line.now none fr.raised ++
       raisedAlerts line.maint line.now (some (errorRate cfg w)) er.raised)

/-- The main loop over a finite prefix of the line source: threads the state
through `step` and concatenates the alert calls in order. -/
def run (cfg : Config) (st : WState) : List LogLine → WState × List Alert
  | [] => (st, [])
  | l :: ls =>
    let s1 := step cfg st l
    let rest := run cfg s1.1 ls
    (rest.1, s1.2 ++ rest.2)

/-- The state after each iteration, in order. -/
def runStates (cfg : Config) (st : WState) : List LogLine → List WState
  | [] => []
  | l :: ls => (step cfg st l).1 :: runStates cfg (step cfg st l).1 ls

/-- `main()` before the loop (watcher.py lines 124-129): the startup info
alert goes through the same maintenance gate, then the loop runs from the
initial state. -/
def runMain (cfg : Config) (maint0 : Bool) (t0 : ℤ) (lines : List LogLine) :
    WState × List Alert :=
  let r := run cfg (initState cfg) lines
  (r.1, sendSlackAlert maint0 .startup t0 none :: r.2)

/-- Alerts that actually reached the Dispatcher. -/
def dispatchedAlerts (evs : List Alert) : List Alert := evs.filter (·.dispatched)

/-- Call sites guarded by the `last_failover_alert` cooldown timer. -/
def isFailoverKind : AlertKind → Bool
  | .failoverDetected => true
  | .failoverRecovery => true
  | _ => false

/-- Call sites guarded by the `last_error_rate_alert` cooldown timer. -/
def isErrorRateKind : AlertKind → Bool
  | .highErrorRate => true
  | .errorRateRecovered => true
  | _ => false

/-- Maintenance-toggle call sites. -/
def isToggleKind : AlertKind → Bool
  | .maintEnabled => true
  | .maintDisabled => true
  | _ => false

def isFailoverEvent (a : Alert) : Bool := isFailoverKind a.kind

def isErrorRateEvent (a : Alert) : Bool := isErrorRateKind a.kind

def isToggleEvent (a : Alert) : Bool := isToggleKind a.kind

/-- Timestamps of the selected alerts, in order. -/
def timesOf (sel : Alert → Bool) (evs : List Alert) : List ℤ :=
  (evs.filter sel).map (·.time)

/-- Timestamps of the dispatched alerts whose `alert_type` string is `c`. -/
def dispatchedTimesOfType (c : String) (evs : List Alert) : List ℤ :=
  timesOf (fun a => decide (a.kind.alertType = c)) (dispatchedAlerts evs)

/-- The error-rate-class alerts that reached the Dispatcher, as call sites. -/
def erDispatchedKinds (evs : List Alert) : List AlertKind :=
  ((dispatchedAlerts evs).filter isErrorRateEvent).map (·.kind)

/-- Error-rate alert attempts (dispatched or maintenance-suppressed) as
booleans: `true` = breach, `false` = recovery. -/
def erFlags (evs : List Alert) : List Bool :=
  (evs.filter isErrorRateEvent).map (fun a => a.kind = AlertKind.highErrorRate)

/-- The detection state: everything except `maintenance_mode_prev` — the
window, the tracker's remembered pool, both cooldown timers, the latch. -/
def WState.detect (st : WState) : List ℕ × String × Option ℤ × Option ℤ × Bool :=
  (st.requestWindow, st.lastFailoverPool, st.lastFailoverAlert,
   st.lastErrorRateAlert, st.errorRateBreached)

/-- Result of process startup. -/
inductive StartupResult where
  | fatalConfigError
  | started (st : WState)
deriving DecidableEq

/-- Module top level (watcher.py lines 15-28): `SLACK_WEBHOOK_URL` is read
from the environment (`none` = unset); `if not SLACK_WEBHOOK_URL: exit(1)`
runs before any state is created, so an unset (or empty) webhook is fatal and
nothing else initializes. -/
def startWatcher (slackWebhookUrl : Option String) (cfg : Config) : StartupResult :=
  if slackWebhookUrl.getD "" = "" then .fatalConfigError
  else .started (initState cfg)

/-! ## Concrete configurations and input sequences used in scenarios -/

/-- Small configuration: active pool blue, threshold 2 percent, window 1,
cooldown 300 seconds. -/
def cfgEx : Config := ⟨"blue", 2, 1, 300⟩

/-- Default-like configuration with a large window (the error-rate section
stays cold over short runs): active pool blue, threshold 2, window 200,
cooldown 300. -/
def cfgC1 : Config := ⟨"blue", 2, 200, 300⟩

/-- The spec scenario for C1: observations blue, green, blue, with the
cooldown elapsed before each and maintenance off. -/
def linesC1 : List LogLine :=
  [⟨false, 0, some ("blue", 200)⟩, ⟨false, 400, some ("green", 200)⟩,
   ⟨false, 800, some ("blue", 200)⟩]

/-- Window 1, cooldown 0: every matched line recomputes the error rate and
the cooldown is always elapsed. -/
def cfgC3 : Config := ⟨"blue", 2, 1, 0⟩

/-- Maintenance toggling interleaved with alternating 5xx/2xx statuses. -/
def linesC3 : List LogLine :=
  [⟨false, 0, some ("blue", 500)⟩, ⟨true, 1, some ("blue", 200)⟩,
   ⟨true, 2, some ("blue", 500)⟩, ⟨false, 3, some ("blue", 200)⟩,
   ⟨true, 4, some ("blue", 500)⟩, ⟨false, 5, some ("blue", 200)⟩]

/-- Maintenance toggled on/off twice in quick succession, no matched lines. -/
def linesC4 : List LogLine :=
  [⟨true, 0, none⟩, ⟨false, 5, none⟩, ⟨true, 10, none⟩, ⟨false, 15, none⟩]

/-- Two failover-triggering observations 10 seconds apart (within the
300-second cooldown). -/
def linesC5 : List LogLine :=
  [⟨false, 0, some ("green", 200)⟩, ⟨false, 10, some ("purple", 200)⟩]

/-- A breach followed, after the cooldown, by a recovery; maintenance off. -/
def linesW3 : List LogLine :=
  [⟨false, 0, some ("blue", 500)⟩, ⟨false, 400, some ("blue", 200)⟩]

/-- Two failover alerts separated by more than the cooldown. -/
def linesW4 : List LogLine :=
  [⟨false, 0, some ("green", 200)⟩, ⟨false, 400, some ("blue", 200)⟩]

/-- One matched 5xx line with maintenance off. -/
def lineB : LogLine := ⟨false, 0, some ("blue", 500)⟩

/-- One matched 5xx line, with a pool change, while maintenance is on. -/
def lineM : LogLine := ⟨true, 0, some ("green", 500)⟩

/-- Window-2 configuration for the exact error-rate computation. -/
def cfgW2 : Config := ⟨"blue", 2, 2, 300⟩

/-- The breach alert produced from the initial state by `lineB` under
`cfgEx`. -/
def breachAlertEx : Alert := ⟨.highErrorRate, 0, true, some 100⟩

/-- Runs differing only in the maintenance flag. -/
def linesW7a : List LogLine := [⟨false, 0, some ("green", 500)⟩, ⟨false, 1, none⟩]

def linesW7b : List LogLine := [⟨true, 0, some ("green", 500)⟩, ⟨true, 1, none⟩]

/-! ## Helper lemmas -/

lemma length_dequeAppend (cap : ℕ) (w : List ℕ) (s : ℕ) :
    (dequeAppend cap w s).length = min (w.length + 1) cap := by
  simp [dequeAppend]
  omega

/-- The failover section either raises no alert and leaves the timer alone, or
raises `failoverDetected` with the cooldown elapsed and the timer reset.  In
particular the `failoverRecovery` call site is never reached: the `elif` guard
needs `pool == last_failover_pool`, `pool == ACTIVE_POOL` and
`last_failover_pool != ACTIVE_POOL` simultaneously. -/
lemma failoverCheck_eq_or (cfg : Config) (now : ℤ) (pool lastPool : String)
    (lastAlert : Option ℤ) :
    (∃ fp, failoverCheck cfg now pool lastPool lastAlert = ⟨fp, lastAlert, none⟩) ∨
    (failoverCheck cfg now pool lastPool lastAlert =
        ⟨pool, some now, some .failoverDetected⟩ ∧
      cooldownElapsed cfg now lastAlert = true) := by
  unfold failoverCheck
  split_ifs with h1 h2 h3 h4
  · exact Or.inr ⟨rfl, h2⟩
  · exact Or.inl ⟨pool, rfl⟩
  · exfalso
    simp only [ne_eq, not_not] at h1
    exact h3.2 (h1 ▸ h3.1)
  · exfalso
    simp only [ne_eq, not_not] at h1
    exact h3.2 (h1 ▸ h3.1)
  · exact Or.inl ⟨lastPool, rfl⟩

lemma failoverCheck_pool (cfg : Config) (now : ℤ) (pool lastPool : String)
    (lastAlert : Option ℤ) (h : pool ≠ lastPool) :
    (failoverCheck cfg now pool lastPool lastAlert).lastFailoverPool = pool := by
  unfold failoverCheck
  rw [if_pos h]
  split_ifs <;> rfl

lemma errorRateCheck_eq_or (cfg : Config) (now : ℤ) (w : List ℕ)
    (lastAlert : Option ℤ) (breached : Bool) :
    errorRateCheck cfg now w lastAlert breached = ⟨lastAlert, breached, none⟩ ∨
    (breached = false ∧
      errorRateCheck cfg now w lastAlert breached = ⟨some now, true, some .highErrorRate⟩ ∧
      cooldownElapsed cfg now lastAlert = true) ∨
    (breached = true ∧
      errorRateCheck cfg now w lastAlert breached =
        ⟨some now, false, some .errorRateRecovered⟩ ∧
      cooldownElapsed cfg now lastAlert = true) := by
  unfold errorRateCheck
  split_ifs with h1 h2 h3
  · exact Or.inr (Or.inl ⟨h2.1, rfl, h2.2⟩)
  · exact Or.inl rfl
  · exact Or.inr (Or.inr ⟨h3.1, rfl, h3.2⟩)
  · exact Or.inl rfl

lemma timesOf_append (sel : Alert → Bool) (a b : List Alert) :
    timesOf sel (a ++ b) = timesOf sel a ++ timesOf sel b := by
  simp [timesOf]

lemma erFlags_append (a b : List Alert) :
    erFlags (a ++ b) = erFlags a ++ erFlags b := by
  simp [erFlags]


lemma mem_toggleAlert {p m : Bool} {now : ℤ} {e : Alert} (he : e ∈ toggleAlert p m now) :
    e = sendSlackAlert m (if m then .maintEnabled else .maintDisabled) now none := by
  unfold toggleAlert at he
  split at he
  · simpa using he
  · simp at he

lemma mem_raisedAlerts {m : Bool} {now : ℤ} {r : Option ℚ} {o : Option AlertKind} {e : Alert}
    (he : e ∈ raisedAlerts m now r o) : ∃ k, o = some k ∧ e = sendSlackAlert m k now r := by
  cases o with
  | none => simp [raisedAlerts] at he
  | some k => exact ⟨k, rfl, by simpa [raisedAlerts] using he⟩

lemma step_dispatched (cfg : Config) (st : WState) (line : LogLine) :
    ∀ e ∈ (step cfg st line).2, e.dispatched = !line.maint := by
  obtain ⟨m, now, parsed⟩ := line
  intro e he
  cases parsed with
  | none =>
    simp only [step] at he
    rw [mem_toggleAlert he]
    rfl
  | some pr =>
    obtain ⟨pool, status⟩ := pr
    simp only [step, List.mem_append] at he
    rcases he with (he | he) | he
    · rw [mem_toggleAlert he]; rfl
    · obtain ⟨k, _, hk⟩ := mem_raisedAlerts he; rw [hk]; rfl
    · obtain ⟨k, _, hk⟩ := mem_raisedAlerts he; rw [hk]; rfl

lemma toggleAlert_filter_toggle (p m : Bool) (now : ℤ) :
    (toggleAlert p m now).filter isToggleEvent = toggleAlert p m now := by
  unfold toggleAlert
  split
  · cases m <;> rfl
  · rfl

lemma toggleAlert_filter_failover (p m : Bool) (now : ℤ) :
    (toggleAlert p m now).filter isFailoverEvent = [] := by
  unfold toggleAlert
  split
  · cases m <;> rfl
  · rfl

lemma toggleAlert_filter_er (p m : Bool) (now : ℤ) :
    (toggleAlert p m now).filter isErrorRateEvent = [] := by
  unfold toggleAlert
  split
  · cases m <;> rfl
  · rfl

lemma step_toggle_filter (cfg : Config) (st : WState) (line : LogLine) :
    (step cfg st line).2.filter isToggleEvent =
      toggleAlert st.maintenanceModePrev line.maint line.now := by
  obtain ⟨m, now, parsed⟩ := line
  cases parsed with
  | none => simp only [step]; exact toggleAlert_filter_toggle _ _ _
  | some pr =>
    obtain ⟨pool, status⟩ := pr
    simp only [step, List.filter_append]
    rw [toggleAlert_filter_toggle]
    rcases failoverCheck_eq_or cfg now pool st.lastFailoverPool st.lastFailoverAlert with
      ⟨fp, hfr⟩ | ⟨hfr, _⟩ <;> rw [hfr] <;>
    · by_cases hw : (dequeAppend cfg.windowSize st.requestWindow status).length = cfg.windowSize
      · rw [if_pos hw]
        rcases errorRateCheck_eq_or cfg now (dequeAppend cfg.windowSize st.requestWindow status)
            st.lastErrorRateAlert st.errorRateBreached with her | ⟨_, her, _⟩ | ⟨_, her, _⟩ <;>
          rw [her] <;> simp [raisedAlerts, sendSlackAlert, isToggleEvent, isToggleKind]
      · rw [if_neg hw]
        simp [raisedAlerts, sendSlackAlert, isToggleEvent, isToggleKind]


lemma timesOf_toggleAlert (sel : Alert → Bool) (p m : Bool) (now : ℤ)
    (h : (toggleAlert p m now).filter sel = []) :
    timesOf sel (toggleAlert p m now) = [] := by
  simp [timesOf, h]

lemma timesOf_raisedAlerts_none (sel : Alert → Bool) (m : Bool) (now : ℤ) (r : Option ℚ) :
    timesOf sel (raisedAlerts m now r none) = [] := rfl

lemma timesOf_raised_failover_of_er (q : AlertKind) (hq : isErrorRateKind q = true)
    (m : Bool) (now : ℤ) (r : Option ℚ) :
    timesOf isFailoverEvent (raisedAlerts m now r (some q)) = [] := by
  cases q <;> simp_all [raisedAlerts, timesOf, isFailoverEvent, isFailoverKind,
    sendSlackAlert, isErrorRateKind]

lemma timesOf_raised_failover_detected (m : Bool) (now : ℤ) (r : Option ℚ) :
    timesOf isFailoverEvent (raisedAlerts m now r (some .failoverDetected)) = [now] := by
  simp [raisedAlerts, timesOf, isFailoverEvent, isFailoverKind, sendSlackAlert]

lemma timesOf_raised_er_of_detected (m : Bool) (now : ℤ) (r : Option ℚ) :
    timesOf isErrorRateEvent (raisedAlerts m now r (some .failoverDetected)) = [] := by
  simp [raisedAlerts, timesOf, isErrorRateEvent, isErrorRateKind, sendSlackAlert]

lemma timesOf_raised_er_of_er (q : AlertKind) (hq : isErrorRateKind q = true)
    (m : Bool) (now : ℤ) (r : Option ℚ) :
    timesOf isErrorRateEvent (raisedAlerts m now r (some q)) = [now] := by
  cases q <;> simp_all [raisedAlerts, timesOf, isErrorRateEvent, isErrorRateKind, sendSlackAlert]

/-- The error-rate section of one step: either no er call site is reached,
or one is, with the kind an er kind. -/
lemma step_er_raised (cfg : Config) (now : ℤ) (w : List ℕ) (la : Option ℤ) (b : Bool)
    (p : Prop) [Decidable p] :
    (if p then errorRateCheck cfg now w la b
     else (⟨la, b, none⟩ : ErrorRateResult)).raised = none ∨
    (∃ q, (if p then errorRateCheck cfg now w la b
      else (⟨la, b, none⟩ : ErrorRateResult)).raised = some q ∧ isErrorRateKind q = true) := by
  split
  · rcases errorRateCheck_eq_or cfg now w la b with h | ⟨_, h, _⟩ | ⟨_, h, _⟩ <;> rw [h]
    · exact Or.inl rfl
    · exact Or.inr ⟨_, rfl, rfl⟩
    · exact Or.inr ⟨_, rfl, rfl⟩
  · exact Or.inl rfl

lemma step_failover_timer (cfg : Config) (st : WState) (l : LogLine) :
    (timesOf isFailoverEvent (step cfg st l).2 = [] ∧
      (step cfg st l).1.lastFailoverAlert = st.lastFailoverAlert) ∨
    (timesOf isFailoverEvent (step cfg st l).2 = [l.now] ∧
      (step cfg st l).1.lastFailoverAlert = some l.now ∧
      cooldownElapsed cfg l.now st.lastFailoverAlert = true) := by
  obtain ⟨m, now, parsed⟩ := l
  cases parsed with
  | none =>
    exact Or.inl ⟨timesOf_toggleAlert _ _ _ _ (toggleAlert_filter_failover _ _ _), rfl⟩
  | some pr =>
    obtain ⟨pool, status⟩ := pr
    simp only [step]
    rcases failoverCheck_eq_or cfg now pool st.lastFailoverPool st.lastFailoverAlert with
      ⟨fp, hfr⟩ | ⟨hfr, hel⟩ <;> rw [hfr] <;>
      rcases step_er_raised cfg now (dequeAppend cfg.windowSize st.requestWindow status)
        st.lastErrorRateAlert st.errorRateBreached
        ((dequeAppend cfg.windowSize st.requestWindow status).length = cfg.windowSize)
        with h2 | ⟨q, h2, hq⟩ <;> rw [h2]
    · exact Or.inl ⟨by rw [timesOf_append, timesOf_append,
        timesOf_toggleAlert _ _ _ _ (toggleAlert_filter_failover _ _ _),
        timesOf_raisedAlerts_none, timesOf_raisedAlerts_none]; rfl, rfl⟩
    · exact Or.inl ⟨by rw [timesOf_append, timesOf_append,
        timesOf_toggleAlert _ _ _ _ (toggleAlert_filter_failover _ _ _),
        timesOf_raisedAlerts_none, timesOf_raised_failover_of_er q hq]; rfl, rfl⟩
    · exact Or.inr ⟨by rw [timesOf_append, timesOf_append,
        timesOf_toggleAlert _ _ _ _ (toggleAlert_filter_failover _ _ _),
        timesOf_raised_failover_detected, timesOf_raisedAlerts_none]; rfl, rfl, hel⟩
    · exact Or.inr ⟨by rw [timesOf_append, timesOf_append,
        timesOf_toggleAlert _ _ _ _ (toggleAlert_filter_failover _ _ _),
        timesOf_raised_failover_detected, timesOf_raised_failover_of_er q hq]; rfl, rfl, hel⟩

lemma step_er_timer (cfg : Config) (st : WState) (l : LogLine) :
    (timesOf isErrorRateEvent (step cfg st l).2 = [] ∧
      (step cfg st l).1.lastErrorRateAlert = st.lastErrorRateAlert) ∨
    (timesOf isErrorRateEvent (step cfg st l).2 = [l.now] ∧
      (step cfg st l).1.lastErrorRateAlert = some l.now ∧
      cooldownElapsed cfg l.now st.lastErrorRateAlert = true) := by
  obtain ⟨m, now, parsed⟩ := l
  cases parsed with
  | none =>
    exact Or.inl ⟨timesOf_toggleAlert _ _ _ _ (toggleAlert_filter_er _ _ _), rfl⟩
  | some pr =>
    obtain ⟨pool, status⟩ := pr
    simp only [step]
    have hto := timesOf_toggleAlert isErrorRateEvent st.maintenanceModePrev m now
      (toggleAlert_filter_er _ _ _)
    have hfin : ∀ o : Option AlertKind,
        (o = none ∨ o = some AlertKind.failoverDetected) →
        ∀ la2 : Option ℤ,
        (timesOf isErrorRateEvent
            (toggleAlert st.maintenanceModePrev m now ++ raisedAlerts m now none o ++
              raisedAlerts m now
                (some (errorRate cfg (dequeAppend cfg.windowSize st.requestWindow status)))
                (if (dequeAppend cfg.windowSize st.requestWindow status).length = cfg.windowSize
                 then errorRateCheck cfg now (dequeAppend cfg.windowSize st.requestWindow status)
                        st.lastErrorRateAlert st.errorRateBreached
                 else ⟨st.lastErrorRateAlert, st.errorRateBreached, none⟩).raised) = [] ∧
          (if (dequeAppend cfg.windowSize st.requestWindow status).length = cfg.windowSize
           then errorRateCheck cfg now (dequeAppend cfg.windowSize st.requestWindow status)
                  st.lastErrorRateAlert st.errorRateBreached
           else ⟨st.lastErrorRateAlert, st.errorRateBreached, none⟩).lastErrorRateAlert =
            st.lastErrorRateAlert) ∨
        (timesOf isErrorRateEvent
            (toggleAlert st.maintenanceModePrev m now ++ raisedAlerts m now none o ++
              raisedAlerts m now
                (some (errorRate cfg (dequeAppend cfg.windowSize st.requestWindow status)))
                (if (dequeAppend cfg.windowSize st.requestWindow status).length = cfg.windowSize
                 then errorRateCheck cfg now (dequeAppend cfg.windowSize st.requestWindow status)
                        st.lastErrorRateAlert st.errorRateBreached
                 else ⟨st.lastErrorRateAlert, st.errorRateBreached, none⟩).raised) = [now] ∧
          (if (dequeAppend cfg.windowSize st.requestWindow status).length = cfg.windowSize
           then errorRateCheck cfg now (dequeAppend cfg.windowSize st.requestWindow status)
                  st.lastErrorRateAlert st.errorRateBreached
           else ⟨st.lastErrorRateAlert, st.errorRateBreached, none⟩).lastErrorRateAlert =
            some now ∧
          cooldownElapsed cfg now st.lastErrorRateAlert = true) := by
      intro o ho la2
      have hone : timesOf isErrorRateEvent (raisedAlerts m now none o) = [] := by
        rcases ho with h | h <;> rw [h]
        · exact timesOf_raisedAlerts_none _ _ _ _
        · exact timesOf_raised_er_of_detected _ _ _
      by_cases hw : (dequeAppend cfg.windowSize st.requestWindow status).length = cfg.windowSize
      · rw [if_pos hw]
        rcases errorRateCheck_eq_or cfg now (dequeAppend cfg.windowSize st.requestWindow status)
            st.lastErrorRateAlert st.errorRateBreached with her | ⟨_, her, hel⟩ | ⟨_, her, hel⟩ <;>
          rw [her]
        · exact Or.inl ⟨by rw [timesOf_append, timesOf_append, hto, hone,
            timesOf_raisedAlerts_none]; rfl, rfl⟩
        · exact Or.inr ⟨by rw [timesOf_append, timesOf_append, hto, hone,
            timesOf_raised_er_of_er AlertKind.highErrorRate rfl]; rfl, rfl, hel⟩
        · exact Or.inr ⟨by rw [timesOf_append, timesOf_append, hto, hone,
            timesOf_raised_er_of_er AlertKind.errorRateRecovered rfl]; rfl, rfl, hel⟩
      · rw [if_neg hw]
        exact Or.inl ⟨by rw [timesOf_append, timesOf_append, hto, hone,
          timesOf_raisedAlerts_none]; rfl, rfl⟩
    rcases failoverCheck_eq_or cfg now pool st.lastFailoverPool st.lastFailoverAlert with
      ⟨fp, hfr⟩ | ⟨hfr, _⟩ <;> rw [hfr]
    · exact hfin none (Or.inl rfl) st.lastErrorRateAlert
    · exact hfin (some AlertKind.failoverDetected) (Or.inr rfl) st.lastErrorRateAlert


lemma erFlags_toggleAlert (p m : Bool) (now : ℤ) :
    erFlags (toggleAlert p m now) = [] := by
  simp [erFlags, toggleAlert_filter_er]

lemma erFlags_raisedAlerts_none (m : Bool) (now : ℤ) (r : Option ℚ) :
    erFlags (raisedAlerts m now r none) = [] := rfl

lemma erFlags_raised_detected (m : Bool) (now : ℤ) (r : Option ℚ) :
    erFlags (raisedAlerts m now r (some .failoverDetected)) = [] := by
  simp [erFlags, raisedAlerts, isErrorRateEvent, isErrorRateKind, sendSlackAlert]

lemma erFlags_raised_high (m : Bool) (now : ℤ) (r : Option ℚ) :
    erFlags (raisedAlerts m now r (some .highErrorRate)) = [true] := by
  simp [erFlags, raisedAlerts, isErrorRateEvent, isErrorRateKind, sendSlackAlert]

lemma erFlags_raised_recovered (m : Bool) (now : ℤ) (r : Option ℚ) :
    erFlags (raisedAlerts m now r (some .errorRateRecovered)) = [false] := by
  simp [erFlags, raisedAlerts, isErrorRateEvent, isErrorRateKind, sendSlackAlert]

/-- The per-step behaviour of the breach latch together with the error-rate
alert attempts it produces: no attempt and an unchanged latch, or one attempt
whose direction is the negation of the incoming latch, which the latch then
takes. -/
lemma step_er_latch (cfg : Config) (st : WState) (l : LogLine) :
    (erFlags (step cfg st l).2 = [] ∧
      (step cfg st l).1.errorRateBreached = st.errorRateBreached) ∨
    (erFlags (step cfg st l).2 = [!st.errorRateBreached] ∧
      (step cfg st l).1.errorRateBreached = !st.errorRateBreached) := by
  obtain ⟨m, now, parsed⟩ := l
  cases parsed with
  | none => exact Or.inl ⟨erFlags_toggleAlert _ _ _, rfl⟩
  | some pr =>
    obtain ⟨pool, status⟩ := pr
    simp only [step]
    have hfin : ∀ o : Option AlertKind,
        (o = none ∨ o = some AlertKind.failoverDetected) →
        erFlags (raisedAlerts m now none o) = [] := by
      intro o ho
      rcases ho with h | h <;> rw [h]
      · exact erFlags_raisedAlerts_none _ _ _
      · exact erFlags_raised_detected _ _ _
    rcases failoverCheck_eq_or cfg now pool st.lastFailoverPool st.lastFailoverAlert with
      ⟨fp, hfr⟩ | ⟨hfr, _⟩ <;> rw [hfr] <;>
    · by_cases hw : (dequeAppend cfg.windowSize st.requestWindow status).length = cfg.windowSize
      · rw [if_pos hw]
        rcases errorRateCheck_eq_or cfg now (dequeAppend cfg.windowSize st.requestWindow status)
            st.lastErrorRateAlert st.errorRateBreached with her | ⟨hb, her, _⟩ | ⟨hb, her, _⟩ <;>
          rw [her]
        · exact Or.inl ⟨by rw [erFlags_append, erFlags_append, erFlags_toggleAlert,
            hfin _ (by simp), erFlags_raisedAlerts_none]; rfl, rfl⟩
        · refine Or.inr ⟨?_, by rw [hb]; rfl⟩
          rw [erFlags_append, erFlags_append, erFlags_toggleAlert,
            hfin _ (by simp), erFlags_raised_high, hb]
          rfl
        · refine Or.inr ⟨?_, by rw [hb]; rfl⟩
          rw [erFlags_append, erFlags_append, erFlags_toggleAlert,
            hfin _ (by simp), erFlags_raised_recovered, hb]
          rfl
      · rw [if_neg hw]
        exact Or.inl ⟨by rw [erFlags_append, erFlags_append, erFlags_toggleAlert,
          hfin _ (by simp), erFlags_raisedAlerts_none]; rfl, rfl⟩

/-- C5 step lemma: a matched observation with a new pool always updates the
remembered pool, cooldown or not. -/
lemma step_pool (cfg : Config) (st : WState) (l : LogLine) (pool : String) (status : ℕ)
    (hp : l.parsed = some (pool, status)) (hne : pool ≠ st.lastFailoverPool) :
    (step cfg st l).1.lastFailoverPool = pool := by
  obtain ⟨m, now, parsed⟩ := l
  simp only at hp
  subst hp
  simp only [step]
  exact failoverCheck_pool cfg now pool st.lastFailoverPool st.lastFailoverAlert hne

/-- C1 step lemma: the `failoverRecovery` call site is unreachable. -/
lemma step_no_recovery (cfg : Config) (st : WState) (l : LogLine) :
    AlertKind.failoverRecovery ∉ ((step cfg st l).2.map (·.kind)) := by
  obtain ⟨m, now, parsed⟩ := l
  intro hmem
  rw [List.mem_map] at hmem
  obtain ⟨e, he, hk⟩ := hmem
  cases parsed with
  | none =>
    simp only [step] at he
    rw [mem_toggleAlert he] at hk
    cases m <;> simp [sendSlackAlert] at hk
  | some pr =>
    obtain ⟨pool, status⟩ := pr
    simp only [step, List.mem_append] at he
    rcases he with (he | he) | he
    · rw [mem_toggleAlert he] at hk
      cases m <;> simp [sendSlackAlert] at hk
    · obtain ⟨k, hko, hke⟩ := mem_raisedAlerts he
      rcases failoverCheck_eq_or cfg now pool st.lastFailoverPool st.lastFailoverAlert with
        ⟨fp, hfr⟩ | ⟨hfr, _⟩ <;> rw [hfr] at hko <;> simp at hko
      rw [hke] at hk
      simp [sendSlackAlert] at hk
      rw [← hko] at hk
      simp at hk
    · obtain ⟨k, hko, hke⟩ := mem_raisedAlerts he
      rcases step_er_raised cfg now (dequeAppend cfg.windowSize st.requestWindow status)
          st.lastErrorRateAlert st.errorRateBreached
          ((dequeAppend cfg.windowSize st.requestWindow status).length = cfg.windowSize)
          with h2 | ⟨q, h2, hq⟩ <;> rw [h2] at hko <;> simp at hko
      rw [hke] at hk
      simp [sendSlackAlert] at hk
      rw [← hko] at hk
      rw [hk] at hq
      simp [isErrorRateKind] at hq

/-- C9 step lemma: any error-rate-class alert is only raised when the updated
window is full, and carries exactly the computed rational error rate. -/
lemma step_er_rate (cfg : Config) (st : WState) (l : LogLine) (e : Alert)
    (he : e ∈ (step cfg st l).2) (hk : isErrorRateKind e.kind = true) :
    (step cfg st l).1.requestWindow.length = cfg.windowSize ∧
    e.errorRate = some (errorRate cfg (step cfg st l).1.requestWindow) := by
  obtain ⟨m, now, parsed⟩ := l
  cases parsed with
  | none =>
    simp only [step] at he
    rw [mem_toggleAlert he] at hk
    cases m <;> simp [sendSlackAlert, isErrorRateKind] at hk
  | some pr =>
    obtain ⟨pool, status⟩ := pr
    simp only [step, List.mem_append] at he ⊢
    rcases he with (he | he) | he
    · rw [mem_toggleAlert he] at hk
      cases m <;> simp [sendSlackAlert, isErrorRateKind] at hk
    · obtain ⟨k, hko, hke⟩ := mem_raisedAlerts he
      rcases failoverCheck_eq_or cfg now pool st.lastFailoverPool st.lastFailoverAlert with
        ⟨fp, hfr⟩ | ⟨hfr, _⟩ <;> rw [hfr] at hko <;> simp at hko
      rw [hke] at hk
      simp only [sendSlackAlert] at hk
      rw [← hko] at hk
      simp [isErrorRateKind] at hk
    · obtain ⟨k, hko, hke⟩ := mem_raisedAlerts he
      by_cases hw : (dequeAppend cfg.windowSize st.requestWindow status).length = cfg.windowSize
      · refine ⟨hw, ?_⟩
        rw [hke]
        rfl
      · rw [if_neg hw] at hko
        simp [raisedAlerts] at hko


/-- The detection state after a step depends only on the detection state
before it and the (clock, parse-result) of the line — not on the maintenance
flag and not on `maintenance_mode_prev`. -/
lemma step_detect_congr (cfg : Config) (st st' : WState) (l l' : LogLine)
    (hst : st.detect = st'.detect) (hnow : l.now = l'.now) (hp : l.parsed = l'.parsed) :
    ((step cfg st l).1).detect = ((step cfg st' l').1).detect := by
  obtain ⟨w, p, fa, ea, b, mp⟩ := st
  obtain ⟨w', p', fa', ea', b', mp'⟩ := st'
  simp only [WState.detect, Prod.mk.injEq] at hst
  obtain ⟨h1, h2, h3, h4, h5⟩ := hst
  subst h1; subst h2; subst h3; subst h4; subst h5
  obtain ⟨m, now, parsed⟩ := l
  obtain ⟨m', now', parsed'⟩ := l'
  simp only at hnow hp
  subst hnow; subst hp
  cases parsed with
  | none => rfl
  | some pr => rfl

/-- Generic cooldown-chain lemma: if each step either produces no alert of a
timer class and preserves the timer, or produces exactly one at the line's
clock with the cooldown elapsed against the stored timer (which it then
takes), then the sequence of that class's alert times, prefixed by the
incoming timer value, is a chain with gaps of at least the cooldown. -/
lemma run_timer_chain (cfg : Config) (getT : WState → Option ℤ) (sel : Alert → Bool)
    (hstep : ∀ (st : WState) (l : LogLine),
      (timesOf sel (step cfg st l).2 = [] ∧ getT (step cfg st l).1 = getT st) ∨
      (timesOf sel (step cfg st l).2 = [l.now] ∧ getT (step cfg st l).1 = some l.now ∧
        cooldownElapsed cfg l.now (getT st) = true)) :
    ∀ (lines : List LogLine) (st : WState),
      List.Chain' (fun a b => a + cfg.alertCooldownSec ≤ b)
        ((getT st).toList ++ timesOf sel (run cfg st lines).2) := by
  intro lines
  induction lines with
  | nil =>
    intro st
    cases getT st <;> simp [run, timesOf]
  | cons l ls ih =>
    intro st
    have hr : timesOf sel (run cfg st (l :: ls)).2 =
        timesOf sel (step cfg st l).2 ++ timesOf sel (run cfg (step cfg st l).1 ls).2 := by
      simp only [run]
      exact timesOf_append _ _ _
    rcases hstep st l with ⟨h1, h2⟩ | ⟨h1, h2, h3⟩
    · rw [hr, h1, List.nil_append]
      have := ih (step cfg st l).1
      rw [h2] at this
      exact this
    · rw [hr, h1]
      have hih := ih (step cfg st l).1
      rw [h2] at hih
      simp only [Option.toList, List.singleton_append] at hih
      cases hgt : getT st with
      | none => simpa using hih
      | some t =>
        rw [hgt] at h3
        simp only [cooldownElapsed, decide_eq_true_eq] at h3
        simp only [Option.toList, List.singleton_append, List.cons_append, List.nil_append]
        rw [List.chain'_cons]
        exact ⟨by omega, hih⟩

/-- The breach latch and the error-rate alert attempts alternate: prefixing
the attempt directions with the incoming latch value gives a sequence with no
two adjacent equal entries. -/
lemma run_er_chain (cfg : Config) :
    ∀ (lines : List LogLine) (st : WState),
      List.Chain' (fun a b => a ≠ b)
        (st.errorRateBreached :: erFlags (run cfg st lines).2) := by
  intro lines
  induction lines with
  | nil => intro st; simp [run, erFlags]
  | cons l ls ih =>
    intro st
    have hr : erFlags (run cfg st (l :: ls)).2 =
        erFlags (step cfg st l).2 ++ erFlags (run cfg (step cfg st l).1 ls).2 := by
      simp only [run]
      exact erFlags_append _ _
    rcases step_er_latch cfg st l with ⟨h1, h2⟩ | ⟨h1, h2⟩
    · rw [hr, h1, List.nil_append]
      have := ih (step cfg st l).1
      rw [h2] at this
      exact this
    · rw [hr, h1]
      have hih := ih (step cfg st l).1
      rw [h2] at hih
      simp only [List.singleton_append]
      rw [List.chain'_cons]
      exact ⟨by cases st.errorRateBreached <;> simp, hih⟩

/-- In a run in which the maintenance marker is never present, every alert
reaches the Dispatcher. -/
lemma run_dispatched (cfg : Config) :
    ∀ (lines : List LogLine) (st : WState), (∀ l ∈ lines, l.maint = false) →
      ∀ e ∈ (run cfg st lines).2, e.dispatched = true := by
  intro lines
  induction lines with
  | nil => intro st h e he; simp [run] at he
  | cons l ls ih =>
    intro st h e he
    simp only [run, List.mem_append] at he
    rcases he with he | he
    · have := step_dispatched cfg st l e he
      rw [this, h l (by simp)]
      rfl
    · exact ih _ (fun x hx => h x (by simp [hx])) e he

/-! ## Claim theorems -/

/-- Claim C8: for every sequence of status-code pushes the window never holds
more than `WindowSize` entries, and once full (`WindowSize` entries present,
`WindowSize > 0`), each push evicts exactly the oldest entry (FIFO). -/
theorem window_bounded_and_fifo :
    (∀ (cap : ℕ) (pushes : List ℕ),
      (pushes.foldl (dequeAppend cap) []).length ≤ cap) ∧
    (∀ (cap : ℕ) (w : List ℕ) (s : ℕ), w.length = cap → 0 < cap →
      dequeAppend cap w s = w.tail ++ [s]) := by
  constructor
  · intro cap pushes
    have aux : ∀ (ps : List ℕ) (w : List ℕ), w.length ≤ cap →
        (ps.foldl (dequeAppend cap) w).length ≤ cap := by
      intro ps
      induction ps with
      | nil => intro w hw; simpa using hw
      | cons p pt ih =>
        intro w _
        simp only [List.foldl_cons]
        exact ih _ (by rw [length_dequeAppend]; omega)
    exact aux pushes [] (by simp)
  · intro cap w s hw hcap
    cases w with
    | nil => simp at hw; omega
    | cons a t =>
      simp only [List.length_cons] at hw
      simp only [dequeAppend, List.length_cons]
      have h1 : t.length + 1 + 1 - cap = 1 := by omega
      rw [h1]
      simp

theorem window_bounded_and_fifo_witness :
    ([10, 20, 30].foldl (dequeAppend 2) []).length ≤ 2 ∧
    ((10 : ℕ) :: [20]).length = 2 ∧ 0 < 2 ∧
      dequeAppend 2 [10, 20] 30 = [20, 30] := by
  refine ⟨window_bounded_and_fifo.1 2 [10, 20, 30], by decide, by decide, ?_⟩
  exact window_bounded_and_fifo.2 2 [10, 20] 30 (by decide) (by decide)

/-- Claim C10: if the alert destination (`SLACK_WEBHOOK_URL`) is unset at
startup, the process exits as a fatal configuration error before any state
initializes (the result carries no state). -/
theorem missing_webhook_fatal_before_init (cfg : Config) :
    startWatcher none cfg = StartupResult.fatalConfigError := rfl


/-- Claim C1 (code bug): in the blue, green, blue scenario the third
observation does not dispatch a return-to-primary recovery alert; it takes
the failover branch again (the remembered pool is already green), producing a
second `FAILOVER DETECTED` alert.  The recovery call site is unreachable for
every configuration, state and line. -/
theorem failover_recovery_alert_unreachable :
    (∀ (cfg : Config) (st : WState) (l : LogLine),
      AlertKind.failoverRecovery ∉ ((step cfg st l).2.map (·.kind))) ∧
    (run cfgC1 (initState cfgC1) linesC1).2.map (·.kind) =
      [AlertKind.failoverDetected, AlertKind.failoverDetected] :=
  ⟨step_no_recovery, by decide⟩

/-- Claim C2: for every line processed while the maintenance marker is
present, no alert of any class reaches the Dispatcher. -/
theorem maintenance_suppresses_all_dispatch (cfg : Config) (st : WState) (l : LogLine)
    (h : l.maint = true) : dispatchedAlerts (step cfg st l).2 = [] := by
  unfold dispatchedAlerts
  rw [List.filter_eq_nil_iff]
  intro e he
  rw [step_dispatched cfg st l e he, h]
  simp

theorem maintenance_suppresses_all_dispatch_witness :
    lineM.maint = true ∧ dispatchedAlerts (step cfgEx (initState cfgEx) lineM).2 = [] :=
  ⟨rfl, maintenance_suppresses_all_dispatch cfgEx (initState cfgEx) lineM rfl⟩

/-- Claim C3, counterexample: with maintenance toggling, the dispatched
error-rate-class alerts need not alternate — here a breach dispatch is
followed by two consecutive recovery dispatches, because
maintenance-suppressed attempts still flip the latch. -/
theorem er_alternation_counterexample :
    erDispatchedKinds (run cfgC3 (initState cfgC3) linesC3).2 =
      [AlertKind.highErrorRate, AlertKind.errorRateRecovered,
        AlertKind.errorRateRecovered] ∧
    ¬ List.Chain' (fun a b => a ≠ b)
        (erDispatchedKinds (run cfgC3 (initState cfgC3) linesC3).2) := by
  have heq : erDispatchedKinds (run cfgC3 (initState cfgC3) linesC3).2 =
      [AlertKind.highErrorRate, AlertKind.errorRateRecovered,
        AlertKind.errorRateRecovered] := by
    norm_num [run, step, cfgC3, linesC3, initState, dequeAppend, failoverCheck,
      errorRateCheck, cooldownElapsed, errorRate, errorCount, is5xx, toggleAlert,
      raisedAlerts, sendSlackAlert, erDispatchedKinds, dispatchedAlerts,
      isErrorRateEvent, isErrorRateKind]
  rw [heq]
  exact ⟨rfl, by simp [List.chain'_cons]⟩

/-- Claim C3 as amended: in any run during which the maintenance marker is
never present, the dispatched error-rate alerts strictly alternate between
breach and recovery. -/
theorem er_dispatch_alternation_without_maintenance (cfg : Config)
    (lines : List LogLine) (h : ∀ l ∈ lines, l.maint = false) :
    List.Chain' (fun a b => a ≠ b)
      (erDispatchedKinds (run cfg (initState cfg) lines).2) := by
  have hfe : dispatchedAlerts (run cfg (initState cfg) lines).2 =
      (run cfg (initState cfg) lines).2 := by
    unfold dispatchedAlerts
    rw [List.filter_eq_self]
    exact run_dispatched cfg lines (initState cfg) h
  have h2 := (run_er_chain cfg lines (initState cfg)).tail
  simp only [List.tail_cons] at h2
  unfold erDispatchedKinds
  rw [hfe]
  rw [List.chain'_map]
  unfold erFlags at h2
  rw [List.chain'_map] at h2
  exact h2.imp fun a b hab hk => hab (by rw [hk])

theorem er_dispatch_alternation_without_maintenance_witness :
    (∀ l ∈ linesW3, l.maint = false) ∧
    List.Chain' (fun a b => a ≠ b)
      (erDispatchedKinds (run cfgEx (initState cfgEx) linesW3).2) :=
  ⟨by decide, er_dispatch_alternation_without_maintenance cfgEx linesW3 (by decide)⟩

/-- Claim C4, counterexample: two info-class alerts (maintenance-disabled
toggles) are dispatched 10 seconds apart although the cooldown is 300
seconds — toggle alerts are not cooldown-limited. -/
theorem cooldown_info_class_counterexample :
    dispatchedTimesOfType "info" (run cfgC1 (initState cfgC1) linesC4).2 = [5, 15] ∧
    ¬ List.Chain' (fun a b => a + cfgC1.alertCooldownSec ≤ b)
        (dispatchedTimesOfType "info" (run cfgC1 (initState cfgC1) linesC4).2) := by
  have heq : dispatchedTimesOfType "info" (run cfgC1 (initState cfgC1) linesC4).2 =
      [5, 15] := by decide
  rw [heq]
  refine ⟨rfl, fun hch => ?_⟩
  rw [List.chain'_cons] at hch
  have h1 := hch.1
  norm_num [cfgC1] at h1

/-- Claim C4 as amended: for the two cooldown-timer classes (failover and
error-rate), consecutive accepted alerts are separated by at least the
cooldown; with a nonnegative cooldown this holds pairwise, hence also for the
dispatched subsequence.  Info-class alerts carry no cooldown. -/
theorem cooldown_separation_timer_classes (cfg : Config) (lines : List LogLine) :
    List.Chain' (fun a b => a + cfg.alertCooldownSec ≤ b)
      (timesOf isFailoverEvent (run cfg (initState cfg) lines).2) ∧
    List.Chain' (fun a b => a + cfg.alertCooldownSec ≤ b)
      (timesOf isErrorRateEvent (run cfg (initState cfg) lines).2) ∧
    (0 ≤ cfg.alertCooldownSec →
      List.Pairwise (fun a b => a + cfg.alertCooldownSec ≤ b)
        (timesOf isFailoverEvent (dispatchedAlerts (run cfg (initState cfg) lines).2)) ∧
      List.Pairwise (fun a b => a + cfg.alertCooldownSec ≤ b)
        (timesOf isErrorRateEvent (dispatchedAlerts (run cfg (initState cfg) lines).2))) := by
  have hf := run_timer_chain cfg (fun st => st.lastFailoverAlert) isFailoverEvent
    (fun st l => step_failover_timer cfg st l) lines (initState cfg)
  have he := run_timer_chain cfg (fun st => st.lastErrorRateAlert) isErrorRateEvent
    (fun st l => step_er_timer cfg st l) lines (initState cfg)
  simp only [initState, Option.toList, List.nil_append] at hf he
  refine ⟨hf, he, fun hcd => ?_⟩
  haveI : IsTrans ℤ (fun a b => a + cfg.alertCooldownSec ≤ b) :=
    ⟨by intro a b c h1 h2; omega⟩
  have hpf : List.Pairwise (fun a b => a + cfg.alertCooldownSec ≤ b)
      (timesOf isFailoverEvent (run cfg (initState cfg) lines).2) :=
    List.chain'_iff_pairwise.mp hf
  have hpe : List.Pairwise (fun a b => a + cfg.alertCooldownSec ≤ b)
      (timesOf isErrorRateEvent (run cfg (initState cfg) lines).2) :=
    List.chain'_iff_pairwise.mp he
  have hsub : ∀ sel : Alert → Bool,
      List.Sublist (timesOf sel (dispatchedAlerts (run cfg (initState cfg) lines).2))
        (timesOf sel (run cfg (initState cfg) lines).2) := by
    intro sel
    unfold timesOf dispatchedAlerts
    exact ((List.filter_sublist _).filter sel).map _
  exact ⟨hpf.sublist (hsub isFailoverEvent), hpe.sublist (hsub isErrorRateEvent)⟩

theorem cooldown_separation_timer_classes_witness :
    (0 : ℤ) ≤ cfgEx.alertCooldownSec ∧
    List.Pairwise (fun a b => a + cfgEx.alertCooldownSec ≤ b)
      (timesOf isFailoverEvent (dispatchedAlerts (run cfgEx (initState cfgEx) linesW4).2)) :=
  ⟨by decide, ((cooldown_separation_timer_classes cfgEx linesW4).2.2 (by decide)).1⟩

/-- Claim C5: a matched observation with a pool different from the remembered
pool always updates the remembered pool, even when the candidate alert is
suppressed by cooldown; concretely, of two failover-triggering observations
10 seconds apart only the first dispatches, yet the pool still updates on the
second. -/
theorem remembered_pool_updates_despite_cooldown :
    (∀ (cfg : Config) (st : WState) (l : LogLine) (pool : String) (status : ℕ),
      l.parsed = some (pool, status) → pool ≠ st.lastFailoverPool →
      (step cfg st l).1.lastFailoverPool = pool) ∧
    (dispatchedAlerts (run cfgC1 (initState cfgC1) linesC5).2).map (·.kind) =
        [AlertKind.failoverDetected] ∧
    (run cfgC1 (initState cfgC1) linesC5).1.lastFailoverPool = "purple" :=
  ⟨step_pool, by decide, by decide⟩

theorem remembered_pool_updates_despite_cooldown_witness :
    (⟨false, 0, some ("green", 200)⟩ : LogLine).parsed = some ("green", 200) ∧
    "green" ≠ (initState cfgEx).lastFailoverPool ∧
    (step cfgEx (initState cfgEx) ⟨false, 0, some ("green", 200)⟩).1.lastFailoverPool =
      "green" :=
  ⟨rfl, by decide,
    remembered_pool_updates_despite_cooldown.1 cfgEx (initState cfgEx)
      ⟨false, 0, some ("green", 200)⟩ "green" 200 rfl (by decide)⟩

/-- Claim C6: on a maintenance edge the toggle alert is gated by the current
(just-changed) flag: the enabled-edge alert is suppressed (never dispatched),
the disabled-edge alert is dispatched. -/
theorem maintenance_toggle_asymmetry (cfg : Config) (st : WState) (l : LogLine) :
    (l.maint = true → st.maintenanceModePrev = false →
      (step cfg st l).2.filter isToggleEvent =
        [⟨AlertKind.maintEnabled, l.now, false, none⟩]) ∧
    (l.maint = false → st.maintenanceModePrev = true →
      (step cfg st l).2.filter isToggleEvent =
        [⟨AlertKind.maintDisabled, l.now, true, none⟩]) := by
  constructor
  · intro h1 h2
    rw [step_toggle_filter, h1, h2]
    simp [toggleAlert, sendSlackAlert]
  · intro h1 h2
    rw [step_toggle_filter, h1, h2]
    simp [toggleAlert, sendSlackAlert]

theorem maintenance_toggle_asymmetry_witness :
    ((⟨true, 7, none⟩ : LogLine).maint = true ∧
      (initState cfgEx).maintenanceModePrev = false ∧
      (step cfgEx (initState cfgEx) ⟨true, 7, none⟩).2.filter isToggleEvent =
        [⟨AlertKind.maintEnabled, 7, false, none⟩]) ∧
    ((⟨false, 9, none⟩ : LogLine).maint = false ∧
      (⟨[], "blue", none, none, false, true⟩ : WState).maintenanceModePrev = true ∧
      (step cfgEx (⟨[], "blue", none, none, false, true⟩ : WState)
          ⟨false, 9, none⟩).2.filter isToggleEvent =
        [⟨AlertKind.maintDisabled, 9, true, none⟩]) :=
  ⟨⟨rfl, rfl,
      (maintenance_toggle_asymmetry cfgEx (initState cfgEx) ⟨true, 7, none⟩).1 rfl rfl⟩,
    ⟨rfl, rfl,
      (maintenance_toggle_asymmetry cfgEx ⟨[], "blue", none, none, false, true⟩
          ⟨false, 9, none⟩).2 rfl rfl⟩⟩

/-- Claim C7: two runs over the same clock readings and parse results that
differ only in the maintenance flag have identical detection state (window,
remembered pool, both cooldown timers, breach latch) after every step. -/
theorem detection_state_independent_of_maintenance (cfg : Config)
    (l1 l2 : List LogLine)
    (h : l1.map (fun l => (l.now, l.parsed)) = l2.map (fun l => (l.now, l.parsed))) :
    (runStates cfg (initState cfg) l1).map WState.detect =
      (runStates cfg (initState cfg) l2).map WState.detect := by
  have aux : ∀ (t1 t2 : List LogLine) (st st' : WState), st.detect = st'.detect →
      t1.map (fun l => (l.now, l.parsed)) = t2.map (fun l => (l.now, l.parsed)) →
      (runStates cfg st t1).map WState.detect =
        (runStates cfg st' t2).map WState.detect := by
    intro t1
    induction t1 with
    | nil =>
      intro t2 st st' _ h2
      cases t2 with
      | nil => rfl
      | cons a t => simp at h2
    | cons a t ih =>
      intro t2 st st' hst h2
      cases t2 with
      | nil => simp at h2
      | cons a' t' =>
        simp only [List.map_cons, List.cons.injEq, Prod.mk.injEq] at h2
        obtain ⟨⟨hn, hp⟩, ht⟩ := h2
        have hd := step_detect_congr cfg st st' a a' hst hn hp
        simp only [runStates, List.map_cons]
        rw [hd, ih t' (step cfg st a).1 (step cfg st' a').1 hd ht]
  exact aux l1 l2 _ _ rfl h

theorem detection_state_independent_of_maintenance_witness :
    linesW7a.map (fun l => (l.now, l.parsed)) =
        linesW7b.map (fun l => (l.now, l.parsed)) ∧
    (runStates cfgEx (initState cfgEx) linesW7a).map WState.detect =
      (runStates cfgEx (initState cfgEx) linesW7b).map WState.detect :=
  ⟨by decide,
    detection_state_independent_of_maintenance cfgEx linesW7a linesW7b (by decide)⟩

/-- Claim C9: with a full window holding `k` codes in [500,599], the computed
error rate is exactly `k / WindowSize * 100` (exact rational arithmetic, no
rounding), and error-rate alerts are only raised when the window is full,
carrying exactly that value. -/
theorem error_rate_exact_and_window_full_only :
    (∀ (cfg : Config) (w : List ℕ) (k : ℕ), w.length = cfg.windowSize →
      errorCount w = k → errorRate cfg w = (k : ℚ) / (cfg.windowSize : ℚ) * 100) ∧
    (∀ (cfg : Config) (st : WState) (l : LogLine) (e : Alert),
      e ∈ (step cfg st l).2 → isErrorRateKind e.kind = true →
      (step cfg st l).1.requestWindow.length = cfg.windowSize ∧
      e.errorRate = some (errorRate cfg (step cfg st l).1.requestWindow)) := by
  refine ⟨fun cfg w k _ hk => ?_, fun cfg st l e he hk => step_er_rate cfg st l e he hk⟩
  rw [errorRate, hk]

theorem error_rate_exact_and_window_full_only_witness :
    (([500, 200] : List ℕ).length = cfgW2.windowSize ∧ errorCount [500, 200] = 1 ∧
      errorRate cfgW2 [500, 200] = (1 : ℚ) / (cfgW2.windowSize : ℚ) * 100) ∧
    (breachAlertEx ∈ (step cfgEx (initState cfgEx) lineB).2 ∧
      isErrorRateKind breachAlertEx.kind = true ∧
      (step cfgEx (initState cfgEx) lineB).1.requestWindow.length = cfgEx.windowSize ∧
      breachAlertEx.errorRate =
        some (errorRate cfgEx (step cfgEx (initState cfgEx) lineB).1.requestWindow)) :=
  ⟨⟨by decide, by decide,
      error_rate_exact_and_window_full_only.1 cfgW2 [500, 200] 1 (by decide) (by decide)⟩,
    ⟨by norm_num [step, cfgEx, initState, lineB, dequeAppend, failoverCheck, errorRateCheck,
        cooldownElapsed, errorRate, errorCount, is5xx, toggleAlert, raisedAlerts,
        sendSlackAlert, breachAlertEx], by decide,
      error_rate_exact_and_window_full_only.2 cfgEx (initState cfgEx) lineB breachAlertEx
        (by norm_num [step, cfgEx, initState, lineB, dequeAppend, failoverCheck,
          errorRateCheck, cooldownElapsed, errorRate, errorCount, is5xx, toggleAlert,
          raisedAlerts, sendSlackAlert, breachAlertEx]) (by decide)⟩⟩

end Watcher
